import Mathlib

/-!
Shallow embedding of the duplicate-detection core of the video_analyzer
repository (file video_analyzer/core/analyzer.py), together with proofs
settling the specification claims about it.

Modelling conventions:
* Python floats (bitrate, duration, fps, similarity scores) are modelled as
  rationals; the claims under study do not depend on binary rounding.
* Python ints (heights, widths, byte sizes) are modelled as Int.
* The filesystem and the file-size cache are explicit association lists of
  path to size; the size value doubles as the content identity of a file.
* hashlib.md5(s).hexdigest() truncated to 8 characters is modelled by an
  arbitrary function hash8 : String -> String applied to the exact string the
  code hashes; every statement about signatures is relative to hash8, so the
  theorems compare which strings are hashed, not the hash values themselves.
-/

namespace VideoAnalyzer

attribute [local semireducible] Rat.mul Rat.inv Rat.add Rat.sub Rat.ofScientific

/-! ### Python string primitives -/

/-- Python str.lower() for the ASCII range. -/
def pyLower (s : String) : String :=
  String.mk (s.toList.map Char.toLower)

/-- os.path.basename: the part of the path after the last slash. -/
def basename (p : String) : String :=
  String.mk ((p.toList.reverse.takeWhile (fun c => c ≠ '/')).reverse)

/-- Index of the last occurrence of a character in a list, if any. -/
def lastIndexOf (c : Char) (cs : List Char) : Option Nat :=
  match cs.reverse.findIdx? (fun x => x = c) with
  | none => none
  | some j => some (cs.length - 1 - j)

/-- The stem part of os.path.splitext: drop the extension after the final dot,
provided some non-dot character precedes that dot within the final path
component (so dotfiles keep their name). -/
def splitextStem (s : String) : String :=
  let cs := s.toList
  let sep : Nat :=
    match lastIndexOf '/' cs with
    | none => 0
    | some i => i + 1
  match lastIndexOf '.' cs with
  | none => s
  | some d =>
    if sep ≤ d ∧ ((cs.drop sep).take (d - sep)).any (fun c => c ≠ '.') then
      String.mk (cs.take d)
    else s

/-- Worker for pySplitWs: cur holds the characters of the current word in
reverse order. -/
def splitWsAux (cur : List Char) : List Char → List String
  | [] => if cur.isEmpty then [] else [String.mk cur.reverse]
  | c :: rest =>
    if c.isWhitespace then
      if cur.isEmpty then splitWsAux [] rest
      else String.mk cur.reverse :: splitWsAux [] rest
    else splitWsAux (c :: cur) rest

/-- Python str.split() with no separator: split on whitespace runs and drop
empty pieces. -/
def pySplitWs (s : String) : List String :=
  splitWsAux [] s.toList

/-- Bool test that one character list occurs contiguously inside another
(the Python `needle in hay` test on strings). -/
def containsSub (needle : List Char) : List Char → Bool
  | [] => needle.isEmpty
  | c :: rest => needle.isPrefixOf (c :: rest) || containsSub needle rest

/-- Substring test on strings. -/
def strContains (hay needle : String) : Bool :=
  containsSub needle.toList hay.toList

/-! ### The year-stripping regular expression

_clean_filename removes year tokens with
re.sub of the pattern: optional opening bracket or dot, exactly four digits,
optional closing bracket or dot, replaced by a single space.  The scanner
below reproduces re.sub: scan left to right, at each position greedily match
the pattern, replace a match by one space and resume after it. -/

def yearOpen (c : Char) : Bool := c = '(' || c = '[' || c = '.'

def yearClose (c : Char) : Bool := c = ')' || c = ']' || c = '.'

/-- Length of the year-pattern match starting at the head of a suffix that
has already had its optional opening character removed; pre is 1 when an
opening character was consumed, 0 otherwise. -/
def yearCoreLen (cs : List Char) (pre : Nat) : Option Nat :=
  match cs with
  | a :: b :: c :: d :: rest =>
    if a.isDigit && b.isDigit && c.isDigit && d.isDigit then
      match rest with
      | e :: _ => if yearClose e then some (pre + 5) else some (pre + 4)
      | [] => some (pre + 4)
    else none
  | _ => none

/-- Length of the year-pattern match at the start of the list, if any. -/
def yearMatchLen (cs : List Char) : Option Nat :=
  match cs with
  | [] => none
  | c :: rest =>
    if yearOpen c then
      match yearCoreLen rest 1 with
      | some n => some n
      | none => yearCoreLen cs 0
    else yearCoreLen cs 0

/-- re.sub of the year pattern by a space, scanning left to right.  The fuel
argument makes the recursion structural; every step consumes at least one
character, so fuel equal to the length of the list (as supplied by subYears)
is never exhausted. -/
def subYearsFuel : Nat → List Char → List Char
  | 0, _ => []
  | _, [] => []
  | fuel + 1, c :: rest =>
    match yearMatchLen (c :: rest) with
    | some n => ' ' :: subYearsFuel fuel (rest.drop (n - 1))
    | none => c :: subYearsFuel fuel rest

/-- re.sub of the year pattern by a space, scanning left to right. -/
def subYears (cs : List Char) : List Char :=
  subYearsFuel cs.length cs

/-! ### _clean_filename -/

/-- The fixed quality / release / codec token set of _clean_filename. -/
def quality_indicators : List String :=
  ["1080p", "720p", "480p", "2160p", "4k", "uhd", "hd", "8k",
   "dvdrip", "bdrip", "webdl", "web-dl", "webrip", "bluray", "web", "hdtv",
   "x264", "x265", "h264", "h265", "hevc", "xvid", "divx",
   "remux", "hdr", "dolby", "atmos", "truehd", "dts"]

/-- Join a list of words with single spaces (str.join with a space). -/
def intercalateSpace : List String → String
  | [] => ""
  | [w] => w
  | w :: rest => w ++ " " ++ intercalateSpace rest

/-- The function _clean_filename: lowercase the extension-stripped name, blank out year
tokens, drop every word that is or contains a quality indicator, keep only
alphanumeric characters of the remaining words, join with single spaces. -/
def clean_filename (filename : String) : String :=
  let base_name := pyLower (splitextStem filename)
  let base_name := String.mk (subYears base_name.toList)
  let words := pySplitWs base_name
  let cleaned_words :=
    (words.filter (fun w =>
      !(quality_indicators.contains w) &&
      !(quality_indicators.any (fun qi => strContains w qi)))).map
      (fun w => String.mk (w.toList.filter (fun c => c.isAlphanum)))
  intercalateSpace cleaned_words

/-! ### Data model -/

/-- One entry of content_data: the metadata dict of a file, as populated by
VideoMetadata.get_video_metadata plus ContentInfo.extract_title_info.
Missing dict keys default to 0 or the empty string exactly as the
corresponding .get(key, default) calls do. -/
structure FileInfo where
  path : String
  filename : String
  width : Int
  height : Int
  resolution : String
  bitrate_value : ℚ
  codec : String
  duration_value : ℚ
  fps : ℚ
  format : String
  ctype : String
  title : String
  season : Nat
  episode : Nat
  deriving DecidableEq, Repr

/-! ### Integer helpers for Python rounding and formatting -/

/-- Floor of a rational as used below; Euclidean division of the numerator by
the (positive) denominator. -/
def ratFloor (q : ℚ) : Int :=
  Int.ediv q.num (q.den : Int)

/-- Python int(x) for our uses: truncation toward zero. -/
def pyInt (q : ℚ) : Int :=
  if q < 0 then -(ratFloor (-q)) else ratFloor q

/-- Python round(x) to an integer: nearest, ties to even. -/
def pyRound (q : ℚ) : Int :=
  let f := ratFloor q
  let r := q - (f : ℚ)
  if r < 1/2 then f
  else if (1:ℚ)/2 < r then f + 1
  else if f % 2 = 0 then f else f + 1

/-- Zero-padded two-digit rendering of a natural number, as the format
specifier 02d produces for non-negative values. -/
def pad2 (n : Nat) : String :=
  if n < 10 then "0" ++ toString n else toString n

/-! ### SignatureGenerator: _create_content_signature

The code hashes with hashlib.md5(s).hexdigest() truncated to 8 characters;
the hash is abstracted as a parameter hash8 applied to the exact string the
code encodes, so the theorems compare the hashed payloads, not digests. -/

/-- The function _create_content_signature: tv_show records combine the hash of the
lowercased title with zero-padded season and episode; every other record
combines the hash of the cleaned basename with the duration rounded to the
nearest whole second (Python round, ties to even).  Total: a record with
duration 0 yields the movie signature ending in 0. -/
def _create_content_signature (hash8 : String → String) (m : FileInfo)
    (file_path : String) : String :=
  if m.ctype = "tv_show" then
    "tv:" ++ hash8 (pyLower m.title) ++ "|s" ++ pad2 m.season
      ++ "e" ++ pad2 m.episode
  else
    "movie:" ++ hash8 (clean_filename (basename file_path)) ++ "|"
      ++ toString (pyRound m.duration_value)

/-- The signature format stated by the specification, for comparison with
the implementation: the tv signature hashes the fully normalized title
(lowercased with quality and release tokens and years removed, which is what
the normalize function of the spec, i.e. _clean_filename, produces), the
movie signature hashes the normalized filename stem. -/
def specSignature (hash8 : String → String) (m : FileInfo)
    (file_path : String) : String :=
  if m.ctype = "tv_show" then
    "tv:" ++ hash8 (clean_filename m.title) ++ "|s" ++ pad2 m.season
      ++ "e" ++ pad2 m.episode
  else
    "movie:" ++ hash8 (clean_filename (basename file_path)) ++ "|"
      ++ toString (pyRound m.duration_value)

/-! ### QualityRanker: _calculate_quality_score -/

/-- Resolution contribution of the quality score (0 to 40 points). -/
def resolutionPoints (height : Int) : ℚ :=
  if height > 2160 then 40
  else if height > 1080 then 30
  else if height > 720 then 20
  else if height > 480 then 10
  else 5

/-- Codec contribution of the quality score: the code tests substring
containment on the lowercased codec string. -/
def codecPoints (codec : String) : ℚ :=
  if strContains (pyLower codec) "hevc" || strContains (pyLower codec) "h265"
      || strContains (pyLower codec) "av1" then 20
  else if strContains (pyLower codec) "h264"
      || strContains (pyLower codec) "avc" then 15
  else 5

/-- Frame-rate contribution of the quality score (2 to 10 points). -/
def fpsPoints (fps : ℚ) : ℚ :=
  if fps ≥ 60 then 10
  else if fps ≥ 30 then 7
  else if fps ≥ 24 then 5
  else 2

/-- The function _calculate_quality_score: resolution points, plus bitrate points capped at
30 (three points per Mbps), plus codec points, plus fps points. -/
def _calculate_quality_score (f : FileInfo) : ℚ :=
  resolutionPoints f.height + min 30 (f.bitrate_value * 3)
    + codecPoints f.codec + fpsPoints f.fps

/-! ### The sort key of find_duplicates

find_duplicates sorts each bucket with
sorted(files, key = (pixels, bitrate, minus score, minus size), reverse=True).
Python sorted with reverse=True orders by the key tuple descending
lexicographically and is stable; Mathlib insertionSort with the reflexive
relation (key of second) lexLE (key of first) realizes exactly that order,
keeping the original order of key-equal elements. -/

/-- Lexicographic less-or-equal on the 4-component key tuple, mirroring
Python tuple comparison. -/
def lex4LE (a b : Int × ℚ × ℚ × Int) : Bool :=
  if a.1 < b.1 then true
  else if b.1 < a.1 then false
  else if a.2.1 < b.2.1 then true
  else if b.2.1 < a.2.1 then false
  else if a.2.2.1 < b.2.2.1 then true
  else if b.2.2.1 < a.2.2.1 then false
  else decide (a.2.2.2 ≤ b.2.2.2)

/-- The sort key of find_duplicates for one file: total pixels, bitrate,
negated quality score, negated cached file size.  sz is the file-size lookup
(_get_file_size with its cache) in effect during the pass. -/
def findDupKey (sz : String → Int) (x : FileInfo) : Int × ℚ × ℚ × Int :=
  (x.height * x.width, x.bitrate_value, -(_calculate_quality_score x), -(sz x.path))

/-- Python sorted(l, key, reverse=True): stable descending sort by key. -/
def pySortDesc (sz : String → Int) (l : List FileInfo) : List FileInfo :=
  List.insertionSort
    (fun a b => lex4LE (findDupKey sz b) (findDupKey sz a) = true) l

/-! ### ComparisonAnnotator: _compare_to_highest_quality -/

/-- The compared_to_best dict.  The percent fields and size_diff_value are the
exact integers the code computes.  The code renders bitrate_diff with the
2-decimal float format and size_diff with humanize.naturalsize; those two
presentation strings are modelled by the pairs of values being rendered,
none standing for the string Unknown. -/
structure Comparison where
  resolution_percent : Int
  resolution_diff : String
  bitrate_percent : Int
  bitrate_diff : Option (ℚ × ℚ)
  size_percent : Int
  size_diff : Option (Int × Int)
  size_diff_value : Int
  quality_percent : Int
  deriving DecidableEq, Repr

/-- The function _compare_to_highest_quality: ratios are only formed inside the branches
where both quantities are positive, so no division is ever attempted on a
zero denominator; each else branch pins the percent to 100. -/
def _compare_to_highest_quality (sz : String → Int) (f best : FileInfo) :
    Comparison :=
  { resolution_percent :=
      if f.height > 0 ∧ best.height > 0 then
        pyInt ((f.height : ℚ) / (best.height : ℚ) * 100)
      else 100
    resolution_diff :=
      if f.height > 0 ∧ best.height > 0 then
        toString f.height ++ "p vs " ++ toString best.height ++ "p"
      else "Unknown"
    bitrate_percent :=
      if f.bitrate_value > 0 ∧ best.bitrate_value > 0 then
        pyInt (f.bitrate_value / best.bitrate_value * 100)
      else 100
    bitrate_diff :=
      if f.bitrate_value > 0 ∧ best.bitrate_value > 0 then
        some (f.bitrate_value, best.bitrate_value)
      else none
    size_percent :=
      if sz f.path > 0 ∧ sz best.path > 0 then
        pyInt ((sz f.path : ℚ) / (sz best.path : ℚ) * 100)
      else 100
    size_diff :=
      if sz f.path > 0 ∧ sz best.path > 0 then some (sz f.path, sz best.path)
      else none
    size_diff_value :=
      if sz f.path > 0 ∧ sz best.path > 0 then sz best.path - sz f.path else 0
    quality_percent :=
      if _calculate_quality_score f > 0 ∧ _calculate_quality_score best > 0 then
        pyInt (_calculate_quality_score f / _calculate_quality_score best * 100)
      else 100 }

/-! ### find_duplicates -/

/-- A bucket member after find_duplicates has annotated it.  The code mutates
the metadata dict in place, adding is_highest_quality and compared_to_best;
here the original dict and the added keys sit side by side. -/
structure AnnotatedFile where
  file : FileInfo
  is_highest_quality : Bool
  compared_to_best : Comparison
  deriving DecidableEq, Repr

/-- The group label: title dash S..E.. for a tv_show bucket, the bare title
otherwise, both read off the best (first sorted) file. -/
def groupName (best : FileInfo) : String :=
  if best.ctype = "tv_show" then
    best.title ++ " - S" ++ pad2 best.season ++ "E" ++ pad2 best.episode
  else best.title

/-- Python dict assignment d[k] = v: overwrite in place if the key exists
(keeping its position), else append the new entry. -/
def dictSet {β : Type} (d : List (String × β)) (k : String) (v : β) :
    List (String × β) :=
  if d.any (fun p => p.1 == k) then
    d.map (fun p => if p.1 == k then (k, v) else p)
  else d ++ [(k, v)]

/-- The annotation loop of find_duplicates over an already-sorted bucket:
is_highest_quality is the dict-equality test against files_sorted[0] (by the
time later members are compared, the first dict has been mutated, so with
distinct paths the test is equivalent to equality of the original records),
and compared_to_best compares against files_sorted[0]. -/
def annotateBucket (sz : String → Int) (files_sorted : List FileInfo) :
    List AnnotatedFile :=
  match files_sorted with
  | [] => []
  | best :: _ =>
    files_sorted.map (fun f =>
      ⟨f, decide (f = best), _compare_to_highest_quality sz f best⟩)

/-- The group a single qualifying bucket contributes: its label and its
sorted, annotated members. -/
def bucketGroup (sz : String → Int) (files : List FileInfo) :
    String × List AnnotatedFile :=
  let files_sorted := pySortDesc sz files
  (match files_sorted with
   | [] => ""
   | best :: _ => groupName best,
   annotateBucket sz files_sorted)

/-- find_duplicates: walk content_data in insertion order; every bucket with
more than one file is sorted by the quality key and stored, annotated, in the
duplicates dict under its group label. -/
def find_duplicates (sz : String → Int)
    (content_data : List (String × List FileInfo)) :
    List (String × List AnnotatedFile) :=
  content_data.foldl
    (fun dups b =>
      if b.2.length > 1 then
        dictSet dups (bucketGroup sz b.2).1 (bucketGroup sz b.2).2
      else dups)
    []

/-- The list of groups find_duplicates produces before dict insertion, one
per bucket of size at least 2, in bucket order. -/
def groupsOf (sz : String → Int)
    (content_data : List (String × List FileInfo)) :
    List (String × List AnnotatedFile) :=
  content_data.filterMap
    (fun b => if b.2.length > 1 then some (bucketGroup sz b.2) else none)

/-! ### FuzzyMatcher: _calculate_similarity_score, _are_files_similar,
_group_similar_files -/

/-- The function _calculate_similarity_score: weighted blend of filename Jaccard
similarity, duration ratio, format equality and codec equality, normalized by
the total weight of the sub-scores that were counted.  The weights dict of
the code also lists resolution at one tenth, but no code path ever adds it to
score or total_weight, so it does not appear in the computation. -/
def _calculate_similarity_score (f1 f2 : FileInfo) : ℚ :=
  let base_name1 := clean_filename (basename f1.path)
  let base_name2 := clean_filename (basename f2.path)
  let score1 : ℚ :=
    if base_name1 ≠ "" ∧ base_name2 ≠ "" then
      let words1 := (pySplitWs base_name1).toFinset
      let words2 := (pySplitWs base_name2).toFinset
      if words1.Nonempty ∧ words2.Nonempty then
        let overlap := (words1 ∩ words2).card
        let jaccard : ℚ := (overlap : ℚ) / ((words1 ∪ words2).card : ℚ)
        jaccard * (3/10)
      else (3/10)
    else (3/10)
  let total1 : ℚ := 3/10
  let durOk := f1.duration_value > 0 ∧ f2.duration_value > 0
  let score2 := score1 +
    (if durOk then
      min f1.duration_value f2.duration_value
        / max f1.duration_value f2.duration_value * (1/2)
     else 0)
  let total2 := total1 + (if durOk then (1/2 : ℚ) else 0)
  let score3 := score2 + (if f1.format = f2.format then (1/20 : ℚ) else 0)
  let total3 := total2 + 1/20
  let score4 := score3 + (if f1.codec = f2.codec then (1/20 : ℚ) else 0)
  let total4 := total3 + 1/20
  if total4 > 0 then score4 / total4 else 0

/-- The function _are_files_similar: identical path, or tv episodes with identical
title, season and episode, or similarity at least min_similarity. -/
def _are_files_similar (min_similarity : ℚ) (f1 f2 : FileInfo) : Bool :=
  if f1.path = f2.path then true
  else if f1.ctype = "tv_show" ∧ f2.ctype = "tv_show"
      ∧ f1.title = f2.title ∧ f1.season = f2.season ∧ f1.episode = f2.episode
    then true
  else decide (_calculate_similarity_score f1 f2 ≥ min_similarity)

/-- The function _group_similar_files: repeatedly take the lowest remaining index as a
seed and absorb every remaining file similar to that seed; remaining indices
are visited in ascending order, so the loop is equivalent to splitting off
the head and partitioning the rest by similarity to it.  The fuel argument
(called with the length of the list) makes the recursion structural; each
step consumes the seed, so the fuel never runs out. -/
def groupSimilarFuel (min_similarity : ℚ) :
    Nat → List FileInfo → List (List FileInfo)
  | 0, _ => []
  | _, [] => []
  | fuel + 1, f :: rest =>
    let sim := rest.filter (fun g => _are_files_similar min_similarity f g)
    let rem := rest.filter (fun g => !(_are_files_similar min_similarity f g))
    (f :: sim) :: groupSimilarFuel min_similarity fuel rem

/-- The function _group_similar_files, at its natural argument. -/
def _group_similar_files (min_similarity : ℚ) (files : List FileInfo) :
    List (List FileInfo) :=
  groupSimilarFuel min_similarity files.length files

/-! ### SelectionPolicy: auto_select_files -/

/-- auto_select_files: the selection set is cleared first (the prior set is
discarded), then for every stored duplicate group of size at least 2 all
members except the retained one are added.  With keep_highest_resolution the
retained member is the stored first (highest-quality) one; otherwise the
group is re-sorted by cached file size ascending and the smallest is kept. -/
def autoSelectStep (sz : String → Int) (keep_highest_resolution : Bool)
    (sel : Finset String) (g : String × List AnnotatedFile) : Finset String :=
  if g.2.length ≤ 1 then sel
  else if keep_highest_resolution then
    g.2.tail.foldl (fun s f => insert f.file.path s) sel
  else
    (List.insertionSort
      (fun a b => sz a.file.path ≤ sz b.file.path) g.2).tail.foldl
      (fun s f => insert f.file.path s) sel

def auto_select_files (sz : String → Int) (keep_highest_resolution : Bool)
    (duplicates : List (String × List AnnotatedFile))
    (prior_selection : Finset String) : Finset String :=
  let _ := prior_selection
  duplicates.foldl (autoSelectStep sz keep_highest_resolution)
    (∅ : Finset String)

/-! ### RetentionExecutor: delete_selected_files

The filesystem is an association list from path to file content, content
being abstracted to the byte size (enough to observe creation, loss and
replacement of files), plus the set of directories created so far.
os.rename is given its POSIX semantics, under which an existing destination
entry is replaced silently; a missing source raises, and the exception is
caught by the per-file handler. -/

/-- Filesystem state: files (path to content/size) and existing directories. -/
structure FsState where
  files : List (String × Int)
  dirs : List String
  deriving DecidableEq, Repr

/-- Lookup in an association list. -/
def alistLookup (l : List (String × Int)) (p : String) : Option Int :=
  match l.find? (fun e => e.1 == p) with
  | none => none
  | some e => some e.2

/-- Remove a path from an association list. -/
def alistErase (l : List (String × Int)) (p : String) : List (String × Int) :=
  l.filter (fun e => e.1 != p)

/-- The function _get_file_size: consult the cache first; on a miss read the filesystem
and cache the result; when the file is absent the OSError is caught and 0 is
returned (without caching). -/
def _get_file_size (fs : List (String × Int)) (cache : List (String × Int))
    (p : String) : Int × List (String × Int) :=
  match alistLookup cache p with
  | some s => (s, cache)
  | none =>
    match alistLookup fs p with
    | some s => (s, dictSet cache p s)
    | none => (0, cache)

/-- The results dict of delete_selected_files.  deleted entries carry the
path, the size and, for moves, the target path; failed entries record the
path whose operation raised (the code also stores str(e)); skipped entries
carry path and size. -/
structure DeleteResults where
  deleted : List (String × Int × Option String)
  failed : List String
  skipped : List (String × Int)
  total_freed : Int
  deriving DecidableEq, Repr

/-- One iteration of the non-dry-run loop of delete_selected_files over a
selected path: size lookup, then either a move into output_dir (makedirs
with exist_ok, POSIX rename replacing any existing target) or an unlink;
any raise lands the path in failed and the loop continues. -/
def deleteStep (output_dir : Option String)
    (acc : DeleteResults × FsState × List (String × Int)) (p : String) :
    DeleteResults × FsState × List (String × Int) :=
  let (res, st, cache) := acc
  let (size, cache) := _get_file_size st.files cache p
  match output_dir with
  | some d =>
    let st : FsState :=
      { st with dirs := if st.dirs.contains d then st.dirs else st.dirs ++ [d] }
    let target := d ++ "/" ++ basename p
    match alistLookup st.files p with
    | none =>
      ({ res with failed := res.failed ++ [p] }, st, cache)
    | some content =>
      let files := dictSet (alistErase st.files p) target content
      ({ res with
          deleted := res.deleted ++ [(p, size, some target)],
          total_freed := res.total_freed + size },
        { st with files := files }, cache)
  | none =>
    match alistLookup st.files p with
    | none =>
      ({ res with failed := res.failed ++ [p] }, st, cache)
    | some _ =>
      ({ res with
          deleted := res.deleted ++ [(p, size, none)],
          total_freed := res.total_freed + size },
        { st with files := alistErase st.files p }, cache)

/-- delete_selected_files: in dry-run mode every selected path is recorded as
skipped with its cached size and nothing on the filesystem is touched;
otherwise each selected path is moved or deleted with per-file failure
isolation.  Returns the results dict, the final filesystem state and the
final size cache. -/
def delete_selected_files (dry_run : Bool) (output_dir : Option String)
    (selected : List String) (st : FsState) (cache : List (String × Int)) :
    DeleteResults × FsState × List (String × Int) :=
  if dry_run then
    let out := selected.foldl
      (fun (acc : DeleteResults × List (String × Int)) p =>
        let r := _get_file_size st.files acc.2 p
        ({ acc.1 with
            skipped := acc.1.skipped ++ [(p, r.1)],
            total_freed := acc.1.total_freed + r.1 },
          r.2))
      (⟨[], [], [], 0⟩, cache)
    (out.1, st, out.2)
  else
    selected.foldl (deleteStep output_dir) (⟨[], [], [], 0⟩, st, cache)

/-! ### Concrete fixtures used by witnesses and counterexamples -/

/-- Fixture: a 1080p h264 movie file. -/
def fA : FileInfo :=
  { path := "/m/alpha.mkv", filename := "alpha.mkv", width := 1920,
    height := 1080, resolution := "1080p", bitrate_value := 8,
    codec := "h264", duration_value := 100, fps := 30, format := "mkv",
    ctype := "movie", title := "alpha", season := 0, episode := 0 }

/-- Fixture: a 720p hevc movie file thoroughly dissimilar to fA: different
name words, half the duration, different format and codec. -/
def fB : FileInfo :=
  { path := "/m/beta.avi", filename := "beta.avi", width := 1280,
    height := 720, resolution := "720p", bitrate_value := 3,
    codec := "hevc", duration_value := 50, fps := 30, format := "avi",
    ctype := "movie", title := "beta", season := 0, episode := 0 }

/-- Size cache for fA and fB. -/
def szAB : String → Int :=
  fun p => if p = "/m/alpha.mkv" then 1000 else 500

/-- Fixture: a file with modern codec, quality score 62. -/
def gA : FileInfo :=
  { path := "/m/good.mkv", filename := "good.mkv", width := 1920,
    height := 1080, resolution := "1080p", bitrate_value := 5,
    codec := "hevc", duration_value := 100, fps := 30, format := "mkv",
    ctype := "movie", title := "samename", season := 0, episode := 0 }

/-- Fixture: identical to gA in pixels, bitrate and size but with an old
codec, quality score 47. -/
def gB : FileInfo :=
  { path := "/m/bad.mkv", filename := "bad.mkv", width := 1920,
    height := 1080, resolution := "1080p", bitrate_value := 5,
    codec := "xvid", duration_value := 100, fps := 30, format := "mkv",
    ctype := "movie", title := "samename", season := 0, episode := 0 }

/-- Size cache assigning every path the same size. -/
def szEq : String → Int := fun _ => 700

/-- Fixture: a tv episode whose title contains a quality token. -/
def tvRec : FileInfo :=
  { path := "/t/x.mkv", filename := "x.mkv", width := 0, height := 0,
    resolution := "", bitrate_value := 0, codec := "", duration_value := 0,
    fps := 0, format := "", ctype := "tv_show", title := "My Show BluRay",
    season := 1, episode := 2 }

/-- Fixture: a movie record whose duration extraction failed (0). -/
def mvRec : FileInfo :=
  { path := "/m/Movie.Name.2020.1080p.mkv",
    filename := "Movie.Name.2020.1080p.mkv", width := 1920, height := 1080,
    resolution := "1080p", bitrate_value := 8, codec := "h264",
    duration_value := 0, fps := 24, format := "mkv", ctype := "movie",
    title := "Movie Name", season := 0, episode := 0 }

/-- Fixture: a record with every numeric field zero and an unknown codec. -/
def zeroRec : FileInfo :=
  { path := "/m/zero.mkv", filename := "zero.mkv", width := 0, height := 0,
    resolution := "", bitrate_value := 0, codec := "", duration_value := 0,
    fps := 0, format := "", ctype := "movie", title := "zero", season := 0,
    episode := 0 }

/-! ### Helper lemmas -/

theorem pyInt_nonneg {q : ℚ} (h : 0 ≤ q) : 0 ≤ pyInt q := by
  unfold pyInt
  rw [if_neg (not_lt.2 h)]
  exact Int.ediv_nonneg (Rat.num_nonneg.2 h) (Int.natCast_nonneg _)

theorem annotateBucket_map_file (sz : String → Int) (l : List FileInfo) :
    (annotateBucket sz l).map (fun a => a.file) = l := by
  cases l with
  | nil => rfl
  | cons b t =>
    simp only [annotateBucket, List.map_map]
    exact List.map_id _

theorem mem_dictSet {β : Type} {d : List (String × β)} {k : String} {v : β}
    {x : String × β} (h : x ∈ dictSet d k v) : x ∈ d ∨ x = (k, v) := by
  unfold dictSet at h
  split at h
  · obtain ⟨p, hp, he⟩ := List.mem_map.1 h
    by_cases hk : p.1 == k
    · right
      rw [if_pos hk] at he
      exact he.symm
    · left
      rw [if_neg hk] at he
      exact he ▸ hp
  · rcases List.mem_append.1 h with h' | h'
    · exact Or.inl h'
    · exact Or.inr (List.mem_singleton.1 h')

theorem dictSet_eq_append {β : Type} (d : List (String × β)) (k : String)
    (v : β) (h : ∀ p ∈ d, p.1 ≠ k) : dictSet d k v = d ++ [(k, v)] := by
  have hc : ¬(d.any (fun p => p.1 == k) = true) := by
    simp only [List.any_eq_true, beq_iff_eq, not_exists, not_and]
    exact h
  simp [dictSet, hc]

theorem pySortDesc_perm (sz : String → Int) (l : List FileInfo) :
    (pySortDesc sz l).Perm l :=
  List.perm_insertionSort _ l

/-! ### Claim C2 -/

/-- C2: the claimed ordering (pixel count, bitrate and quality score
maximized, then size minimized) is not what the code computes: the sort key
negates the quality score and is then ordered descending via reverse=True, so
among files with equal pixel count, bitrate and size the member with the
LOWER quality score sorts first and is flagged as the best file.  gA and gB
agree on pixels, bitrate and cached size; gB has the strictly lower quality
score, yet the reported group lists gB first with is_highest_quality true. -/
theorem c2_quality_component_inverted :
    gA.height * gA.width = gB.height * gB.width
  ∧ gA.bitrate_value = gB.bitrate_value
  ∧ szEq gA.path = szEq gB.path
  ∧ _calculate_quality_score gB < _calculate_quality_score gA
  ∧ (find_duplicates szEq [("s", [gA, gB])]).map
      (fun g => g.2.map (fun a => (a.file.path, a.is_highest_quality)))
      = [[("/m/bad.mkv", true), ("/m/good.mkv", false)]] := by
  refine ⟨by decide, by decide, by decide, by decide, by decide⟩

/-! ### Claim C3 -/

/-- C3 counterexample: the claimed tv signature hashes the fully normalized
title, but the code hashes only the lowercased title; for a title containing
a release token the two hashed payloads differ, hence with any hash function
separating them (the identity suffices) the produced signature differs from
the claimed format. -/
theorem c3_tv_title_not_normalized :
    pyLower tvRec.title ≠ clean_filename tvRec.title
  ∧ ∃ hash8 : String → String,
      _create_content_signature hash8 tvRec tvRec.path
        ≠ specSignature hash8 tvRec tvRec.path :=
  ⟨by decide, ⟨fun s => s, by decide⟩⟩

/-- C3 amended: the tv signature hashes the merely lowercased title (no
token or year removal); the movie/unknown signature agrees with the stated
format, and is produced with a 0 suffix when duration extraction failed,
never raising. -/
theorem c3_amended_signature (hash8 : String → String) (m : FileInfo)
    (p : String) :
    (m.ctype = "tv_show" →
      _create_content_signature hash8 m p =
        "tv:" ++ hash8 (pyLower m.title) ++ "|s" ++ pad2 m.season
          ++ "e" ++ pad2 m.episode)
  ∧ (m.ctype ≠ "tv_show" →
      _create_content_signature hash8 m p = specSignature hash8 m p)
  ∧ (m.ctype ≠ "tv_show" → m.duration_value = 0 →
      _create_content_signature hash8 m p =
        "movie:" ++ hash8 (clean_filename (basename p)) ++ "|0") := by
  refine ⟨fun h => by simp [_create_content_signature, h],
    fun h => by simp [_create_content_signature, specSignature, h],
    fun h h0 => ?_⟩
  have hr : pyRound 0 = 0 := by decide
  have hs : toString (0 : Int) = "0" := by decide
  have hp : "|" ++ "0" = ("|0" : String) := by decide
  simp [_create_content_signature, h, h0, hr, hs, String.append_assoc, hp]

/-- C3 amended, witnessed at a tv record with a token-bearing title and at a
movie record with duration 0. -/
theorem c3_amended_witness :
    tvRec.ctype = "tv_show"
  ∧ _create_content_signature (fun s => s) tvRec tvRec.path
      = "tv:my show bluray|s01e02"
  ∧ mvRec.ctype ≠ "tv_show"
  ∧ mvRec.duration_value = 0
  ∧ _create_content_signature (fun s => s) mvRec mvRec.path
      = "movie:" ++ clean_filename (basename mvRec.path) ++ "|0" := by
  refine ⟨by decide, ?_, by decide, by decide,
    (c3_amended_signature (fun s => s) mvRec mvRec.path).2.2
      (by decide) (by decide)⟩
  have h := (c3_amended_signature (fun s => s) tvRec tvRec.path).1 (by decide)
  rw [h]
  decide

/-! ### Claim C4 -/

/-- C4: with dry_run false and a destination directory, two selected files
sharing the basename movie.mp4 are both renamed onto the same target; POSIX
os.rename replaces the existing target silently, so the failed list stays
empty, both entries are recorded as moved, and the content first moved is
destroyed: afterwards the filesystem holds only the second file under the
destination, and the claim that the second move is reported failed and
nothing is overwritten is false. -/
theorem c4_rename_overwrites_existing_target :
    (delete_selected_files false (some "/out")
        ["/a/movie.mp4", "/b/movie.mp4"]
        ⟨[("/a/movie.mp4", 100), ("/b/movie.mp4", 200)], []⟩ []).1.failed = []
  ∧ (delete_selected_files false (some "/out")
        ["/a/movie.mp4", "/b/movie.mp4"]
        ⟨[("/a/movie.mp4", 100), ("/b/movie.mp4", 200)], []⟩ []).1.deleted.map
        (fun e => e.1) = ["/a/movie.mp4", "/b/movie.mp4"]
  ∧ (delete_selected_files false (some "/out")
        ["/a/movie.mp4", "/b/movie.mp4"]
        ⟨[("/a/movie.mp4", 100), ("/b/movie.mp4", 200)], []⟩ []).2.1.files
      = [("/out/movie.mp4", 200)] := by
  refine ⟨by decide, by decide, by decide⟩

/-! ### Claim C6 -/

/-- C6 counterexample: a record with non-negative height, bitrate and fps
whose quality score is 12, outside the claimed interval 22 to 100. -/
theorem c6_score_below_22 :
    0 ≤ zeroRec.height ∧ 0 ≤ zeroRec.bitrate_value ∧ 0 ≤ zeroRec.fps
  ∧ _calculate_quality_score zeroRec = 12
  ∧ ¬(22 ≤ _calculate_quality_score zeroRec) := by
  refine ⟨by decide, by decide, by decide, by decide, by decide⟩

/-- C6 amended: for every record with non-negative bitrate the quality score
lies in the closed interval 12 to 100 (the minimum is 5 resolution points
plus 0 bitrate points plus 5 codec points plus 2 fps points). -/
theorem c6_amended_score_range (f : FileInfo) (hb : 0 ≤ f.bitrate_value) :
    12 ≤ _calculate_quality_score f ∧ _calculate_quality_score f ≤ 100 := by
  have h1 : 5 ≤ resolutionPoints f.height ∧ resolutionPoints f.height ≤ 40 := by
    unfold resolutionPoints
    split_ifs <;> norm_num
  have h2 : 0 ≤ min 30 (f.bitrate_value * 3) ∧ min 30 (f.bitrate_value * 3) ≤ 30 :=
    ⟨le_min (by norm_num) (mul_nonneg hb (by norm_num)), min_le_left _ _⟩
  have h3 : 5 ≤ codecPoints f.codec ∧ codecPoints f.codec ≤ 20 := by
    unfold codecPoints
    split_ifs <;> norm_num
  have h4 : 2 ≤ fpsPoints f.fps ∧ fpsPoints f.fps ≤ 10 := by
    unfold fpsPoints
    split_ifs <;> norm_num
  unfold _calculate_quality_score
  constructor <;>
    linarith [h1.1, h1.2, h2.1, h2.2, h3.1, h3.2, h4.1, h4.2]

/-- C6 amended, witnessed at the all-zero record sitting exactly on the
lower bound. -/
theorem c6_amended_witness :
    (0 ≤ zeroRec.bitrate_value)
  ∧ (12 ≤ _calculate_quality_score zeroRec
      ∧ _calculate_quality_score zeroRec ≤ 100) :=
  ⟨by decide, c6_amended_score_range zeroRec (by decide)⟩

/-! ### Claim C9 -/

/-- C9: every comparison percent is defined and non-negative, divisions are
only performed inside branches whose guard makes both operands positive (so
none can raise), and whenever either side of a ratio is zero the guard fails
and the percent defaults to 100. -/
theorem c9_comparison_defaults (sz : String → Int) (f best : FileInfo) :
    (0 ≤ (_compare_to_highest_quality sz f best).resolution_percent
      ∧ 0 ≤ (_compare_to_highest_quality sz f best).bitrate_percent
      ∧ 0 ≤ (_compare_to_highest_quality sz f best).size_percent
      ∧ 0 ≤ (_compare_to_highest_quality sz f best).quality_percent)
  ∧ (f.height = 0 ∨ best.height = 0 →
      (_compare_to_highest_quality sz f best).resolution_percent = 100)
  ∧ (f.bitrate_value = 0 ∨ best.bitrate_value = 0 →
      (_compare_to_highest_quality sz f best).bitrate_percent = 100)
  ∧ (sz f.path = 0 ∨ sz best.path = 0 →
      (_compare_to_highest_quality sz f best).size_percent = 100)
  ∧ (_calculate_quality_score f = 0 ∨ _calculate_quality_score best = 0 →
      (_compare_to_highest_quality sz f best).quality_percent = 100) := by
  simp only [_compare_to_highest_quality]
  refine ⟨⟨?_, ?_, ?_, ?_⟩, ?_, ?_, ?_, ?_⟩
  · split_ifs with h
    · refine pyInt_nonneg (mul_nonneg (div_nonneg ?_ ?_) (by norm_num)) <;>
        exact_mod_cast (le_of_lt (by omega) : (0:Int) ≤ _)
    · norm_num
  · split_ifs with h
    · exact pyInt_nonneg
        (mul_nonneg (div_nonneg h.1.le h.2.le) (by norm_num))
    · norm_num
  · split_ifs with h
    · refine pyInt_nonneg (mul_nonneg (div_nonneg ?_ ?_) (by norm_num)) <;>
        exact_mod_cast (le_of_lt (by omega) : (0:Int) ≤ _)
    · norm_num
  · split_ifs with h
    · exact pyInt_nonneg
        (mul_nonneg (div_nonneg h.1.le h.2.le) (by norm_num))
    · norm_num
  · intro h
    rw [if_neg]
    rcases h with h | h <;> simp [h]
  · intro h
    rw [if_neg]
    rcases h with h | h <;> simp [h]
  · intro h
    rw [if_neg]
    rcases h with h | h <;> simp [h]
  · intro h
    rw [if_neg]
    rcases h with h | h <;> simp [h]

/-- C9 witnessed at a record with zero bitrate compared against fA: the
bitrate percent defaults to 100. -/
theorem c9_witness :
    (_compare_to_highest_quality szAB zeroRec fA).bitrate_percent = 100 :=
  (c9_comparison_defaults szAB zeroRec fA).2.2.1 (Or.inl (by decide))

/-! ### Structure of the find_duplicates output -/

theorem find_duplicates_go (sz : String → Int) :
    ∀ (cd : List (String × List FileInfo))
      (acc : List (String × List AnnotatedFile)),
      (∀ g ∈ groupsOf sz cd, ∀ p ∈ acc, p.1 ≠ g.1) →
      ((groupsOf sz cd).map (fun g => g.1)).Nodup →
      cd.foldl (fun dups b =>
          if b.2.length > 1 then
            dictSet dups (bucketGroup sz b.2).1 (bucketGroup sz b.2).2
          else dups) acc
        = acc ++ groupsOf sz cd := by
  intro cd
  induction cd with
  | nil =>
    intro acc _ _
    simp [groupsOf]
  | cons b rest ih =>
    intro acc hfresh hnd
    by_cases hb : b.2.length > 1
    · have hg : groupsOf sz (b :: rest)
          = bucketGroup sz b.2 :: groupsOf sz rest := by
        simp [groupsOf, hb]
      rw [hg] at hfresh hnd
      have hstep : dictSet acc (bucketGroup sz b.2).1 (bucketGroup sz b.2).2
          = acc ++ [bucketGroup sz b.2] := by
        apply dictSet_eq_append
        intro p hp
        exact hfresh _ (List.mem_cons_self _ _) p hp
      have hfresh' : ∀ g ∈ groupsOf sz rest,
          ∀ p ∈ acc ++ [bucketGroup sz b.2], p.1 ≠ g.1 := by
        intro g hgm p hp
        rcases List.mem_append.1 hp with hp' | hp'
        · exact hfresh g (List.mem_cons_of_mem _ hgm) p hp'
        · rw [List.mem_singleton.1 hp']
          intro hcontra
          exact (List.nodup_cons.1 hnd).1
            (List.mem_map.2 ⟨g, hgm, hcontra.symm⟩)
      simp only [List.foldl_cons, if_pos hb]
      rw [hstep,
        ih (acc ++ [bucketGroup sz b.2]) hfresh' (List.nodup_cons.1 hnd).2,
        hg, List.append_assoc, List.singleton_append]
    · have hg : groupsOf sz (b :: rest) = groupsOf sz rest := by
        simp [groupsOf, hb]
      rw [hg] at hfresh hnd
      simp only [List.foldl_cons, if_neg hb]
      rw [ih acc hfresh hnd, hg]

theorem find_duplicates_eq_groupsOf (sz : String → Int)
    (cd : List (String × List FileInfo))
    (hnd : ((groupsOf sz cd).map (fun g => g.1)).Nodup) :
    find_duplicates sz cd = groupsOf sz cd := by
  have h := find_duplicates_go sz cd []
    (by intro g _ p hp; cases hp) hnd
  simpa [find_duplicates] using h

theorem find_duplicates_shape (sz : String → Int)
    (cd : List (String × List FileInfo)) :
    ∀ g ∈ find_duplicates sz cd,
      ∃ files, 1 < files.length ∧ g = bucketGroup sz files := by
  have go : ∀ (cd' : List (String × List FileInfo))
      (acc : List (String × List AnnotatedFile)),
      (∀ g ∈ acc, ∃ files, 1 < files.length ∧ g = bucketGroup sz files) →
      ∀ g ∈ cd'.foldl (fun dups b =>
          if b.2.length > 1 then
            dictSet dups (bucketGroup sz b.2).1 (bucketGroup sz b.2).2
          else dups) acc,
        ∃ files, 1 < files.length ∧ g = bucketGroup sz files := by
    intro cd'
    induction cd' with
    | nil =>
      intro acc h
      simpa using h
    | cons b rest ih =>
      intro acc hacc
      by_cases hb : b.2.length > 1
      · simp only [List.foldl_cons, if_pos hb]
        apply ih
        intro g hg
        rcases mem_dictSet hg with h' | h'
        · exact hacc g h'
        · exact ⟨b.2, hb, by rw [h']⟩
      · simp only [List.foldl_cons, if_neg hb]
        exact ih acc hacc
  intro g hg
  exact go cd [] (by simp) g (by simpa [find_duplicates] using hg)

/-! ### Claim C1 -/

/-- C1 counterexample: fA and fB share a signature bucket; they are not
areSimilar (similarity five eighteenths, far below the default threshold),
and the star clustering of _group_similar_files would put them in separate
clusters; yet find_duplicates reports the whole bucket as one group holding
both, because it never consults either function. -/
theorem c1_similarity_not_consulted :
    ((find_duplicates szAB [("movie:x|100", [fA, fB])]).map
        (fun g => (g.1, g.2.map (fun a => a.file.path))))
      = [("alpha", ["/m/alpha.mkv", "/m/beta.avi"])]
  ∧ _are_files_similar (19/20) fA fB = false
  ∧ _group_similar_files (19/20) [fA, fB] = [[fA], [fB]] := by
  refine ⟨by decide, by decide, by decide⟩

/-- C1 amended: within every signature bucket of size at least 2 the
reported duplicate group contains exactly the whole bucket (as the sorted
member list, a permutation of the bucket), and every reported group arises
this way; membership is decided by the shared signature alone, with no
similarity filtering.  The group labels are assumed pairwise distinct, since
a repeated label would make a later bucket overwrite an earlier dict entry. -/
theorem c1_amended_bucket_membership (sz : String → Int)
    (cd : List (String × List FileInfo))
    (hnd : ((groupsOf sz cd).map (fun g => g.1)).Nodup) :
    (∀ s files, (s, files) ∈ cd → 1 < files.length →
      ∃ g ∈ find_duplicates sz cd, (g.2.map (fun a => a.file)).Perm files)
  ∧ (∀ g ∈ find_duplicates sz cd,
      ∃ b ∈ cd, 1 < b.2.length ∧ (g.2.map (fun a => a.file)).Perm b.2) := by
  rw [find_duplicates_eq_groupsOf sz cd hnd]
  constructor
  · intro s files hmem hlen
    refine ⟨bucketGroup sz files, ?_, ?_⟩
    · exact List.mem_filterMap.2 ⟨(s, files), hmem, by simp [hlen]⟩
    · rw [show (bucketGroup sz files).2
          = annotateBucket sz (pySortDesc sz files) from rfl,
        annotateBucket_map_file]
      exact pySortDesc_perm sz files
  · intro g hg
    obtain ⟨b, hb, he⟩ := List.mem_filterMap.1 hg
    by_cases hlen : b.2.length > 1
    · rw [if_pos hlen] at he
      obtain rfl := Option.some.inj he
      refine ⟨b, hb, hlen, ?_⟩
      rw [show (bucketGroup sz b.2).2
          = annotateBucket sz (pySortDesc sz b.2) from rfl,
        annotateBucket_map_file]
      exact pySortDesc_perm sz b.2
    · rw [if_neg hlen] at he
      cases he

/-- C1 amended, witnessed on the dissimilar bucket of fA and fB: the
reported group holds both files. -/
theorem c1_amended_witness :
    ∃ g ∈ find_duplicates szAB [("movie:x|100", [fA, fB])],
      (g.2.map (fun a => a.file)).Perm [fA, fB] :=
  (c1_amended_bucket_membership szAB [("movie:x|100", [fA, fB])]
      (by decide)).1 "movie:x|100" [fA, fB] (by decide) (by decide)

/-! ### Claim C8 -/

/-- C8: in every reported group whose members have pairwise distinct paths,
exactly one member carries is_highest_quality true, and it is the first
member of the quality-ordered list. -/
theorem c8_exactly_one_best (sz : String → Int)
    (cd : List (String × List FileInfo)) :
    ∀ g ∈ find_duplicates sz cd,
      (g.2.map (fun a => a.file.path)).Nodup →
      g.2.countP (fun a => a.is_highest_quality) = 1
      ∧ ∀ h₀ ∈ g.2.head?, h₀.is_highest_quality = true := by
  intro g hg hnd
  obtain ⟨files, hlen, rfl⟩ := find_duplicates_shape sz cd g hg
  have hlen' : 0 < (pySortDesc sz files).length := by
    rw [(pySortDesc_perm sz files).length_eq]
    omega
  obtain ⟨best, rest, hsorted⟩ : ∃ b r, pySortDesc sz files = b :: r := by
    cases h : pySortDesc sz files with
    | nil =>
      rw [h] at hlen'
      simp at hlen'
    | cons b r => exact ⟨b, r, rfl⟩
  have hbg : (bucketGroup sz files).2
      = (best :: rest).map (fun f =>
          (⟨f, decide (f = best),
            _compare_to_highest_quality sz f best⟩ : AnnotatedFile)) := by
    rw [show (bucketGroup sz files).2
        = annotateBucket sz (pySortDesc sz files) from rfl, hsorted]
    rfl
  rw [hbg]
  rw [hbg] at hnd
  have hnd' : best.path ∉ rest.map (fun f => f.path) := by
    have : ((best :: rest).map (fun f => f.path)).Nodup := by
      simpa [List.map_map, Function.comp] using hnd
    exact (List.nodup_cons.1 this).1
  have hrest : ∀ f ∈ rest, ¬((decide (f = best) : Bool) = true) := by
    intro f hf hc
    have : f = best := of_decide_eq_true hc
    exact hnd' (this ▸ List.mem_map_of_mem (fun f => f.path) hf)
  constructor
  · rw [List.countP_map]
    rw [List.countP_cons]
    have h0 : rest.countP
        ((fun a => a.is_highest_quality) ∘ (fun f =>
          (⟨f, decide (f = best),
            _compare_to_highest_quality sz f best⟩ : AnnotatedFile))) = 0 :=
      List.countP_eq_zero.2 hrest
    simp only [Function.comp] at h0 ⊢
    simp [h0]
  · intro h₀ hh
    simp only [List.map_cons, List.head?_cons, Option.mem_def,
      Option.some.injEq] at hh
    rw [← hh]
    simp

/-- C8 witnessed on the bucket of fA and fB. -/
theorem c8_witness :
    ∃ g ∈ find_duplicates szAB [("movie:x|100", [fA, fB])],
      g.2.countP (fun a => a.is_highest_quality) = 1
      ∧ ∀ h₀ ∈ g.2.head?, h₀.is_highest_quality = true := by
  refine ⟨bucketGroup szAB [fA, fB], by decide, ?_⟩
  exact c8_exactly_one_best szAB [("movie:x|100", [fA, fB])]
    (bucketGroup szAB [fA, fB]) (by decide) (by decide)

/-! ### Claim C5 -/

theorem mem_foldl_insert (l : List AnnotatedFile) (s : Finset String)
    (p : String) :
    p ∈ l.foldl (fun s f => insert f.file.path s) s
      ↔ p ∈ s ∨ p ∈ l.map (fun f => f.file.path) := by
  induction l generalizing s with
  | nil => simp
  | cons f t ih =>
    simp only [List.foldl_cons, ih, Finset.mem_insert, List.map_cons,
      List.mem_cons]
    tauto

theorem mem_auto_select_go (sz : String → Int)
    (dups : List (String × List AnnotatedFile)) (s : Finset String)
    (p : String) :
    p ∈ dups.foldl (autoSelectStep sz true) s
      ↔ p ∈ s ∨ ∃ g ∈ dups, 1 < g.2.length
          ∧ p ∈ g.2.tail.map (fun f => f.file.path) := by
  induction dups generalizing s with
  | nil => simp
  | cons g t ih =>
    by_cases hg : g.2.length ≤ 1
    · rw [List.foldl_cons,
        show autoSelectStep sz true s g = s from by simp [autoSelectStep, hg],
        ih]
      constructor
      · rintro (h | ⟨g', hg', hlen, hp⟩)
        · exact Or.inl h
        · exact Or.inr ⟨g', List.mem_cons_of_mem _ hg', hlen, hp⟩
      · rintro (h | ⟨g', hg', hlen, hp⟩)
        · exact Or.inl h
        · rcases List.mem_cons.1 hg' with rfl | hm
          · omega
          · exact Or.inr ⟨g', hm, hlen, hp⟩
    · rw [List.foldl_cons,
        show autoSelectStep sz true s g
            = g.2.tail.foldl (fun s f => insert f.file.path s) s from by
          simp [autoSelectStep, hg],
        ih, mem_foldl_insert]
      constructor
      · rintro ((h | h) | ⟨g', hg', hlen, hp⟩)
        · exact Or.inl h
        · exact Or.inr ⟨g, List.mem_cons_self _ _, by omega, h⟩
        · exact Or.inr ⟨g', List.mem_cons_of_mem _ hg', hlen, hp⟩
      · rintro (h | ⟨g', hg', hlen, hp⟩)
        · exact Or.inl (Or.inl h)
        · rcases List.mem_cons.1 hg' with rfl | hm
          · exact Or.inl (Or.inr hp)
          · exact Or.inr ⟨g', hm, hlen, hp⟩

theorem mem_auto_select (sz : String → Int)
    (dups : List (String × List AnnotatedFile)) (prior : Finset String)
    (p : String) :
    p ∈ auto_select_files sz true dups prior
      ↔ ∃ g ∈ dups, 1 < g.2.length
          ∧ p ∈ g.2.tail.map (fun f => f.file.path) := by
  unfold auto_select_files
  rw [mem_auto_select_go]
  simp

/-- C5: after KEEP_BEST auto-selection, membership in the selection set is
exactly being a non-first member of some stored group of size at least 2;
with all paths distinct across the stored groups, each group of size n
contributes exactly n minus 1 of its paths and never its first (best) one;
and the outcome ignores whatever selection existed before the run, since the
set is cleared and rebuilt. -/
theorem c5_keep_best_selection (sz : String → Int)
    (dups : List (String × List AnnotatedFile)) (prior : Finset String)
    (Hnd : ((dups.map (fun g => g.2.map (fun f => f.file.path))).flatten).Nodup) :
    (∀ p : String, p ∈ auto_select_files sz true dups prior
      ↔ ∃ g ∈ dups, 1 < g.2.length
          ∧ p ∈ g.2.tail.map (fun f => f.file.path))
  ∧ (∀ g ∈ dups, 1 < g.2.length →
      ((g.2.map (fun f => f.file.path)).filter
          (fun p => decide (p ∈ auto_select_files sz true dups prior))).length
        = g.2.length - 1
      ∧ ∀ h₀ ∈ g.2.head?, h₀.file.path ∉ auto_select_files sz true dups prior)
  ∧ auto_select_files sz true dups prior
      = auto_select_files sz true dups ∅ := by
  have hnodups : ∀ g ∈ dups, (g.2.map (fun f => f.file.path)).Nodup :=
    fun g hgm => (List.nodup_flatten.1 Hnd).1 _
      (List.mem_map_of_mem (fun g => g.2.map (fun f => f.file.path)) hgm)
  have hdisj := (List.nodup_flatten.1 Hnd).2
  refine ⟨mem_auto_select sz dups prior, ?_, rfl⟩
  intro g hgm hlen
  obtain ⟨hd, tl, hgeq⟩ : ∃ h t, g.2 = h :: t := by
    cases hcase : g.2 with
    | nil =>
      rw [hcase] at hlen
      simp at hlen
    | cons h t => exact ⟨h, t, rfl⟩
  have hheadnot : hd.file.path ∉ auto_select_files sz true dups prior := by
    rw [mem_auto_select]
    rintro ⟨g', hg'm, hlen', hp⟩
    have hptail : hd.file.path ∈ (g'.2.map (fun f => f.file.path)).tail := by
      cases hcase : g'.2 with
      | nil =>
        rw [hcase] at hlen'
        simp at hlen'
      | cons h' t' =>
        rw [hcase] at hp
        simpa using hp
    by_cases hPP : g.2.map (fun f => f.file.path)
        = g'.2.map (fun f => f.file.path)
    · have hnd := hnodups g hgm
      rw [hgeq] at hnd hPP
      rw [← hPP] at hptail
      simp only [List.map_cons, List.tail_cons] at hptail
      exact (List.nodup_cons.1 (by simpa using hnd)).1 hptail
    · have hdj := hdisj.forall (fun a b h => h.symm)
        (List.mem_map_of_mem _ hgm) (List.mem_map_of_mem _ hg'm) hPP
      have h1 : hd.file.path ∈ g.2.map (fun f => f.file.path) := by
        rw [hgeq]
        simp
      have h2 : hd.file.path ∈ g'.2.map (fun f => f.file.path) :=
        List.tail_subset _ hptail
      exact hdj h1 h2
  have htailmem : ∀ p ∈ tl.map (fun f => f.file.path),
      p ∈ auto_select_files sz true dups prior := by
    intro p hp
    rw [mem_auto_select]
    exact ⟨g, hgm, hlen, by rw [hgeq]; simpa using hp⟩
  constructor
  · rw [hgeq]
    simp only [List.map_cons, List.filter_cons]
    rw [if_neg (by simpa using hheadnot)]
    rw [List.filter_eq_self.2 (fun p hp => by simpa using htailmem p hp)]
    simp
  · intro h₀ hh
    rw [hgeq] at hh
    simp only [List.head?_cons, Option.mem_def, Option.some.injEq] at hh
    rw [← hh]
    exact hheadnot

/-- Two disjoint stored groups used by the C5 witness. -/
def dupsW : List (String × List AnnotatedFile) :=
  [bucketGroup szAB [fA, fB], bucketGroup szEq [gA, gB]]

/-- C5 witnessed on two disjoint groups with a non-empty prior selection:
the non-best path is selected, the group contributes exactly one path, and
the prior selection has no influence. -/
theorem c5_witness :
    fB.path ∈ auto_select_files szAB true dupsW {"stale"}
  ∧ (((bucketGroup szAB [fA, fB]).2.map (fun f => f.file.path)).filter
        (fun p => decide (p ∈ auto_select_files szAB true dupsW {"stale"}))).length
      = (bucketGroup szAB [fA, fB]).2.length - 1
  ∧ auto_select_files szAB true dupsW {"stale"}
      = auto_select_files szAB true dupsW ∅ := by
  have h := c5_keep_best_selection szAB dupsW {"stale"} (by decide)
  refine ⟨?_, (h.2.1 (bucketGroup szAB [fA, fB]) (by decide) (by decide)).1,
    h.2.2⟩
  exact (h.1 fB.path).2 ⟨bucketGroup szAB [fA, fB], by decide, by decide,
    by decide⟩

/-! ### Claim C7 -/

theorem dry_run_go (fs : List (String × Int)) :
    ∀ (sel : List String) (res : DeleteResults) (cache : List (String × Int)),
      (∀ p ∈ sel, alistLookup cache p ≠ none) →
      sel.foldl
        (fun (acc : DeleteResults × List (String × Int)) p =>
          let r := _get_file_size fs acc.2 p
          ({ acc.1 with
              skipped := acc.1.skipped ++ [(p, r.1)],
              total_freed := acc.1.total_freed + r.1 },
            r.2))
        (res, cache)
      = ({ res with
            skipped := res.skipped
              ++ sel.map (fun p => (p, (alistLookup cache p).getD 0)),
            total_freed := res.total_freed
              + (sel.map (fun p => (alistLookup cache p).getD 0)).sum },
          cache) := by
  intro sel
  induction sel with
  | nil =>
    intro res cache _
    simp
  | cons p t ih =>
    intro res cache hc
    obtain ⟨s, hs⟩ : ∃ s, alistLookup cache p = some s := by
      cases hcase : alistLookup cache p with
      | none => exact absurd hcase (hc p (List.mem_cons_self _ _))
      | some s => exact ⟨s, rfl⟩
    have hg : _get_file_size fs cache p = (s, cache) := by
      simp [_get_file_size, hs]
    simp only [List.foldl_cons, hg]
    rw [ih _ cache (fun q hq => hc q (List.mem_cons_of_mem _ hq))]
    simp [hs, List.append_assoc, add_assoc]

/-- C7: a dry run mutates neither the filesystem nor the directory set,
deletes and fails nothing, records every selected path in skipped with its
cached size, and reports as total freed the sum of the selected cached
sizes; the size cache itself is also left unchanged when every selected path
is already cached. -/
theorem c7_dry_run_effects (output_dir : Option String) (sel : List String)
    (st : FsState) (cache : List (String × Int))
    (Hc : ∀ p ∈ sel, alistLookup cache p ≠ none) :
    (delete_selected_files true output_dir sel st cache).2.1 = st
  ∧ (delete_selected_files true output_dir sel st cache).1.deleted = []
  ∧ (delete_selected_files true output_dir sel st cache).1.failed = []
  ∧ (delete_selected_files true output_dir sel st cache).1.skipped
      = sel.map (fun p => (p, (alistLookup cache p).getD 0))
  ∧ (delete_selected_files true output_dir sel st cache).1.total_freed
      = (sel.map (fun p => (alistLookup cache p).getD 0)).sum
  ∧ (delete_selected_files true output_dir sel st cache).2.2 = cache := by
  unfold delete_selected_files
  rw [if_pos rfl, dry_run_go st.files sel ⟨[], [], [], 0⟩ cache Hc]
  simp

/-- Selection of scenario C: two files of 100 and 200 MiB. -/
def selC : List String := ["/v/a.mkv", "/v/b.mkv"]

/-- Size cache of scenario C. -/
def cacheC : List (String × Int) :=
  [("/v/a.mkv", 104857600), ("/v/b.mkv", 209715200)]

/-- Filesystem of scenario C. -/
def stC : FsState :=
  ⟨[("/v/a.mkv", 104857600), ("/v/b.mkv", 209715200)], []⟩

/-- C7 witnessed on scenario C: total freed is 300 times 2 to the 20, both
paths are skipped, the filesystem is untouched. -/
theorem c7_witness :
    (delete_selected_files true none selC stC cacheC).1.total_freed = 314572800
  ∧ (delete_selected_files true none selC stC cacheC).1.skipped.map
      (fun e => e.1) = selC
  ∧ (delete_selected_files true none selC stC cacheC).2.1 = stC := by
  have h := c7_dry_run_effects none selC stC cacheC (by decide)
  refine ⟨h.2.2.2.2.1.trans (by decide), ?_, h.1⟩
  rw [h.2.2.2.1]
  decide

/-! ### Claim C10 -/

theorem similarity_score_symm (f1 f2 : FileInfo) :
    _calculate_similarity_score f1 f2 = _calculate_similarity_score f2 f1 := by
  unfold _calculate_similarity_score
  have eName :
      (if clean_filename (basename f1.path) ≠ ""
            ∧ clean_filename (basename f2.path) ≠ "" then
        (if ((pySplitWs (clean_filename (basename f1.path))).toFinset.Nonempty
              ∧ (pySplitWs (clean_filename (basename f2.path))).toFinset.Nonempty) then
          ((((pySplitWs (clean_filename (basename f1.path))).toFinset
              ∩ (pySplitWs (clean_filename (basename f2.path))).toFinset).card : ℚ)
            / (((pySplitWs (clean_filename (basename f1.path))).toFinset
              ∪ (pySplitWs (clean_filename (basename f2.path))).toFinset).card : ℚ))
            * (3/10)
        else (3/10))
      else (3/10))
      = (if clean_filename (basename f2.path) ≠ ""
            ∧ clean_filename (basename f1.path) ≠ "" then
        (if ((pySplitWs (clean_filename (basename f2.path))).toFinset.Nonempty
              ∧ (pySplitWs (clean_filename (basename f1.path))).toFinset.Nonempty) then
          ((((pySplitWs (clean_filename (basename f2.path))).toFinset
              ∩ (pySplitWs (clean_filename (basename f1.path))).toFinset).card : ℚ)
            / (((pySplitWs (clean_filename (basename f2.path))).toFinset
              ∪ (pySplitWs (clean_filename (basename f1.path))).toFinset).card : ℚ))
            * (3/10)
        else (3/10))
      else (3/10)) := by
    refine if_congr and_comm (if_congr and_comm ?_ rfl) rfl
    rw [Finset.inter_comm, Finset.union_comm]
  have eDurS :
      (if f1.duration_value > 0 ∧ f2.duration_value > 0 then
        min f1.duration_value f2.duration_value
          / max f1.duration_value f2.duration_value * (1/2)
      else 0)
      = (if f2.duration_value > 0 ∧ f1.duration_value > 0 then
        min f2.duration_value f1.duration_value
          / max f2.duration_value f1.duration_value * (1/2)
      else 0) := by
    refine if_congr and_comm ?_ rfl
    rw [min_comm, max_comm]
  have eDurT :
      (if f1.duration_value > 0 ∧ f2.duration_value > 0 then (1/2 : ℚ) else 0)
      = (if f2.duration_value > 0 ∧ f1.duration_value > 0 then (1/2 : ℚ) else 0) :=
    if_congr and_comm rfl rfl
  have eFmt :
      (if f1.format = f2.format then (1/20 : ℚ) else 0)
      = (if f2.format = f1.format then (1/20 : ℚ) else 0) :=
    if_congr eq_comm rfl rfl
  have eCodec :
      (if f1.codec = f2.codec then (1/20 : ℚ) else 0)
      = (if f2.codec = f1.codec then (1/20 : ℚ) else 0) :=
    if_congr eq_comm rfl rfl
  simp only []
  rw [eName, eDurS, eDurT, eFmt, eCodec]

/-- C10: the similarity score is symmetric in its two arguments, and hence
so is the areSimilar test, so star clustering does not depend on the
argument order of a comparison. -/
theorem c10_similarity_symmetric (min_similarity : ℚ) (f1 f2 : FileInfo) :
    _calculate_similarity_score f1 f2 = _calculate_similarity_score f2 f1
  ∧ _are_files_similar min_similarity f1 f2
      = _are_files_similar min_similarity f2 f1 := by
  refine ⟨similarity_score_symm f1 f2, ?_⟩
  unfold _are_files_similar
  rw [similarity_score_symm f1 f2]
  by_cases hp : f1.path = f2.path
  · rw [if_pos hp, if_pos hp.symm]
  · have hp2 : ¬(f2.path = f1.path) := fun h => hp h.symm
    rw [if_neg hp, if_neg hp2]
    by_cases ht : f1.ctype = "tv_show" ∧ f2.ctype = "tv_show"
        ∧ f1.title = f2.title ∧ f1.season = f2.season
        ∧ f1.episode = f2.episode
    · have ht2 : f2.ctype = "tv_show" ∧ f1.ctype = "tv_show"
          ∧ f2.title = f1.title ∧ f2.season = f1.season
          ∧ f2.episode = f1.episode :=
        ⟨ht.2.1, ht.1, ht.2.2.1.symm, ht.2.2.2.1.symm, ht.2.2.2.2.symm⟩
      rw [if_pos ht, if_pos ht2]
    · have ht2 : ¬(f2.ctype = "tv_show" ∧ f1.ctype = "tv_show"
          ∧ f2.title = f1.title ∧ f2.season = f1.season
          ∧ f2.episode = f1.episode) :=
        fun h => ht ⟨h.2.1, h.1, h.2.2.1.symm, h.2.2.2.1.symm,
          h.2.2.2.2.symm⟩
      rw [if_neg ht, if_neg ht2]

end VideoAnalyzer
